import Mathlib

/-!
Verification of the blog-publishing pipeline: the build script
(scripts/build.js) and the serving layer (src/index.ts).

Modelling conventions (shallow embedding):
- Dates are epoch timestamps modelled as `Int`; the ISO-8601 string form
  produced by `toISOString` is a library bijection on valid dates and the
  code only ever compares dates through `new Date(...)`, so the numeric
  model is faithful for ordering.
- JSON objects used as dictionaries (the tag index) are modelled as
  association lists `List (String × List String)` in insertion order;
  property access `obj[k]` is `List.lookup`.
- JavaScript `x || d` on strings is `jsOrStr`: the empty string is the
  only falsy string value.
- `parseInt` returning `NaN` is modelled as `none : Option Int`; `NaN`
  propagates through arithmetic as `Option.map`, and `Array.prototype.slice`
  coerces a `NaN` bound to `0` (ToIntegerOrInfinity).
- Fallible steps (file read, JSON.parse) are `Except String _` fields of
  the load context; the catch blocks of the source turn them into the
  sample artifact.
-/

/-- A post record, mirroring the `Post` interface of src/index.ts and the
`postData` object literal of scripts/build.js. -/
structure Post where
  slug : String
  title : String
  date : Int
  updated : Option Int
  tags : List String
  excerpt : String
  content : String
deriving DecidableEq, Repr

/-- The blog artifact, mirroring the `BlogData` interface of src/index.ts:
posts plus a tag index mapping tag names to slug lists. -/
structure BlogData where
  posts : List Post
  tags : List (String × List String)
  generatedAt : Int
deriving DecidableEq, Repr

/-- JavaScript `s || d` for strings: the empty string is the only falsy
string, so it falls through to the default; `none` models `undefined`. -/
def jsOrStr (o : Option String) (d : String) : String :=
  match o with
  | none => d
  | some s => if s = "" then d else s

/-- Value of a list of decimal digit characters. -/
def digitsVal (cs : List Char) : Nat :=
  cs.foldl (fun n c => 10 * n + (c.toNat - 48)) 0

/-- JavaScript `parseInt(s)` in the default radix: skip leading whitespace,
optional sign, then the longest prefix of decimal digits; `none` models the
`NaN` result when no digit is found. -/
def parseIntJS (s : String) : Option Int :=
  let core : List Char → Option Nat := fun l =>
    let ds := l.takeWhile Char.isDigit
    if ds.isEmpty then none else some (digitsVal ds)
  match s.toList.dropWhile Char.isWhitespace with
  | '-' :: rest => (core rest).map (fun n => -(n : Int))
  | '+' :: rest => (core rest).map (fun n => (n : Int))
  | l => (core l).map (fun n => (n : Int))

/-- ECMAScript ToIntegerOrInfinity restricted to our model: `none` is `NaN`
and coerces to `0`. -/
def toIntegerOrInfinity (o : Option Int) : Int :=
  o.getD 0

/-- Clamping of a relative index by `Array.prototype.slice`: a negative
index counts from the end (clamped at 0 by `Int.toNat`), a non-negative one
is clamped at the length. -/
def sliceIndex (len : Nat) (rel : Int) : Nat :=
  if rel < 0 then ((len : Int) + rel).toNat else min rel.toNat len

/-- JavaScript `l.slice(s, e)` with possibly-`NaN` bounds: the elements with
indices in the half-open interval from the clamped start to the clamped
end. -/
def jsSlice {α : Type} (l : List α) (s e : Option Int) : List α :=
  let k := sliceIndex l.length (toIntegerOrInfinity s)
  let fin := sliceIndex l.length (toIntegerOrInfinity e)
  (l.take fin).drop k

/-- The built-in `SAMPLE_BLOG_DATA` constant of src/index.ts, parameterised
by the module-initialisation timestamp (`new Date()` at load time). -/
def SAMPLE_BLOG_DATA (now : Int) : BlogData :=
  { posts := [
      { slug := "hello-world"
        title := "Hello World"
        date := now
        updated := none
        tags := ["Sample"]
        excerpt := "This is a sample post."
        content := "<h1>Hello World</h1><p>This is a sample post. In a real build, HTML generated from Markdown files would be displayed here.</p>" }]
    tags := [("Sample", ["hello-world"])]
    generatedAt := now }

/-- The ambient state that `loadBlogData` consults: runtime flags, whether
the dynamic `fs`/`path` imports succeeded, whether the artifact file
exists, and the (fallible) outcomes of reading and JSON-parsing it. -/
structure LoadContext where
  isNodeJS : Bool
  isDevelopment : Bool
  fsLoaded : Bool
  pathLoaded : Bool
  fileExists : Bool
  readFile : Except String String
  parseJson : String → Except String BlogData

/-- `loadBlogData` of src/index.ts. In the development branch it checks the
imported modules, checks `existsSync`, reads and parses the file, and every
failure (guard or thrown exception, caught by the surrounding try/catch)
yields `SAMPLE_BLOG_DATA`; every other branch returns the sample directly
(the network path is short-circuited to the sample in the source). -/
def loadBlogData (now : Int) (ctx : LoadContext) : BlogData :=
  if ctx.isNodeJS && ctx.isDevelopment && ctx.fsLoaded then
    if !(ctx.fsLoaded && ctx.pathLoaded) then SAMPLE_BLOG_DATA now
    else if !ctx.fileExists then SAMPLE_BLOG_DATA now
    else
      match ctx.readFile with
      | Except.error _ => SAMPLE_BLOG_DATA now
      | Except.ok s =>
        match ctx.parseJson s with
        | Except.error _ => SAMPLE_BLOG_DATA now
        | Except.ok d => d
  else SAMPLE_BLOG_DATA now

/-- Claim C1: for every context the loader returns a usable artifact and
never propagates an error: a missing file, a failed read, or malformed
JSON each yield the built-in sample artifact, and in general the result is
either the sample artifact or the successfully parsed file contents. -/
theorem loadBlogData_never_fails (now : Int) (ctx : LoadContext) :
    (ctx.fileExists = false → loadBlogData now ctx = SAMPLE_BLOG_DATA now) ∧
    (∀ e, ctx.readFile = Except.error e → loadBlogData now ctx = SAMPLE_BLOG_DATA now) ∧
    (∀ s e, ctx.readFile = Except.ok s → ctx.parseJson s = Except.error e →
      loadBlogData now ctx = SAMPLE_BLOG_DATA now) ∧
    (loadBlogData now ctx = SAMPLE_BLOG_DATA now ∨
      ∃ s d, ctx.readFile = Except.ok s ∧ ctx.parseJson s = Except.ok d ∧
        loadBlogData now ctx = d) := by
  obtain ⟨nj, dev, fsL, pL, fe, rf, pj⟩ := ctx
  refine ⟨?_, ?_, ?_, ?_⟩
  · intro h
    subst h
    cases nj <;> cases dev <;> cases fsL <;> cases pL <;> simp [loadBlogData]
  · intro e h
    subst h
    cases nj <;> cases dev <;> cases fsL <;> cases pL <;> cases fe <;>
      simp [loadBlogData]
  · intro s e hrf hpj
    subst hrf
    have h2 : pj s = Except.error e := hpj
    cases nj <;> cases dev <;> cases fsL <;> cases pL <;> cases fe <;>
      simp [loadBlogData, h2]
  · cases nj <;> cases dev <;> cases fsL <;> cases pL <;> cases fe <;>
      cases hrf : rf <;> simp [loadBlogData, hrf] <;>
      (try (rename_i s; cases hpj : pj s <;> simp [hpj]))

/-- Concrete instance of `loadBlogData_never_fails`: a development context
whose artifact file is missing, whose read would fail anyway, and whose
parse always fails, still yields the sample artifact. -/
theorem loadBlogData_never_fails_witness :
    loadBlogData 0
      { isNodeJS := true, isDevelopment := true, fsLoaded := true,
        pathLoaded := true, fileExists := false,
        readFile := Except.error "ENOENT",
        parseJson := fun _ => Except.error "bad json" } = SAMPLE_BLOG_DATA 0 :=
  (loadBlogData_never_fails 0 _).1 rfl

/-- The pagination slice of the listing route of src/index.ts for an
already-parsed page number: `start = (page - 1) * perPage`,
`end = start + perPage` with `perPage = 10`, then `posts.slice(start, end)`. -/
def slicePage (posts : List Post) (page : Int) : List Post :=
  jsSlice posts (some ((page - 1) * 10)) (some ((page - 1) * 10 + 10))

/-- `Math.ceil(posts.length / perPage)` with `perPage = 10`, as computed by
the listing route (ceiling division on a natural count). -/
def totalPages (posts : List Post) : Nat :=
  (posts.length + 10 - 1) / 10

/-- The pagination portion of the listing route handler of src/index.ts:
`page = parseInt(query.page || "1")`, `start = (page - 1) * 10`,
`end = start + 10`, returning `posts.slice(start, end)` together with
`totalPages`. A `NaN` page (`none`) flows into both slice bounds. -/
def listHandler (posts : List Post) (pageQ : Option String) : List Post × Nat :=
  let page := parseIntJS (jsOrStr pageQ "1")
  let start := page.map (fun p => (p - 1) * 10)
  let e := page.map (fun p => (p - 1) * 10 + 10)
  (jsSlice posts start e, totalPages posts)

/-- Clamped slicing from `min s len` to `min (s + n) len` is the contiguous
drop-then-take slice. -/
theorem take_min_drop_min {α : Type} (l : List α) (s n : Nat) :
    (l.take (min (s + n) l.length)).drop (min s l.length) = (l.drop s).take n := by
  rw [List.drop_take]
  rcases le_or_lt s l.length with hs | hs
  · rw [min_eq_left hs]
    rcases le_or_lt (s + n) l.length with h1 | h1
    · rw [min_eq_left h1, Nat.add_sub_cancel_left]
    · rw [min_eq_right (le_of_lt h1)]
      have hlen : (l.drop s).length = l.length - s := List.length_drop s l
      rw [List.take_of_length_le (by omega), List.take_of_length_le (by omega)]
  · rw [min_eq_right (le_of_lt hs), min_eq_right (by omega), Nat.sub_self]
    simp [List.drop_eq_nil_of_le (le_of_lt hs)]

/-- Claim C2: for every post collection and page number at least 1 with
`perPage = 10`, the listing returns exactly the contiguous slice from
`(page - 1) * 10` to `(page - 1) * 10 + 10` (exclusive); the slice is empty
whenever the start index reaches the post count; and `totalPages` is the
ceiling of the post count divided by 10 (the least number of pages covering
all posts). -/
theorem listSlice_spec (posts : List Post) (page : Int) (h : 1 ≤ page) :
    slicePage posts page = (posts.drop ((page - 1) * 10).toNat).take 10 ∧
    ((posts.length : Int) ≤ (page - 1) * 10 → slicePage posts page = []) ∧
    posts.length ≤ 10 * totalPages posts ∧
    (∀ m : Nat, posts.length ≤ 10 * m → totalPages posts ≤ m) := by
  have hge : (0 : Int) ≤ (page - 1) * 10 := by omega
  have hmain : slicePage posts page = (posts.drop ((page - 1) * 10).toNat).take 10 := by
    simp only [slicePage, jsSlice, toIntegerOrInfinity, Option.getD_some]
    rw [sliceIndex, sliceIndex, if_neg (by omega), if_neg (by omega)]
    have h10 : ((page - 1) * 10 + 10).toNat = ((page - 1) * 10).toNat + 10 := by omega
    rw [h10]
    exact take_min_drop_min posts _ 10
  refine ⟨hmain, ?_, ?_, ?_⟩
  · intro hle
    rw [hmain, List.drop_eq_nil_of_le (by omega)]
    rfl
  · show posts.length ≤ 10 * ((posts.length + 10 - 1) / 10)
    omega
  · intro m hm
    show (posts.length + 10 - 1) / 10 ≤ m
    omega

/-- Concrete instance of `listSlice_spec` at page 1 on the sample artifact. -/
theorem listSlice_spec_witness :
    slicePage (SAMPLE_BLOG_DATA 0).posts 1 =
      ((SAMPLE_BLOG_DATA 0).posts.drop (((1 : Int) - 1) * 10).toNat).take 10 ∧
    (((SAMPLE_BLOG_DATA 0).posts.length : Int) ≤ ((1 : Int) - 1) * 10 →
      slicePage (SAMPLE_BLOG_DATA 0).posts 1 = []) ∧
    (SAMPLE_BLOG_DATA 0).posts.length ≤ 10 * totalPages (SAMPLE_BLOG_DATA 0).posts ∧
    (∀ m : Nat, (SAMPLE_BLOG_DATA 0).posts.length ≤ 10 * m →
      totalPages (SAMPLE_BLOG_DATA 0).posts ≤ m) :=
  listSlice_spec _ 1 (by norm_num)

/-- Counterexample to claim C3: on the sample artifact a non-numeric page
query `page=abc` yields the empty list (`parseInt` gives `NaN`, and
`slice(NaN, NaN)` is `slice(0, 0)`), while page 1 would yield the first 10
posts, which is not empty — so a non-numeric page does not behave as
page 1. -/
theorem listHandler_nonNumeric_cex :
    (listHandler (SAMPLE_BLOG_DATA 0).posts (some "abc")).1 = [] ∧
    (SAMPLE_BLOG_DATA 0).posts.take 10 ≠ [] := by
  constructor
  · rfl
  · decide

/-- Claim C3 (amended): a non-numeric page query parameter does not default
to page 1: `parseInt` yields `NaN`, both slice bounds coerce to 0, and the
listing returns the empty sequence; only an absent page parameter (or the
empty string, which is falsy) defaults to page 1. -/
theorem listHandler_nonNumeric (posts : List Post) (q : String)
    (hq : parseIntJS q = none) (hne : q ≠ "") :
    (listHandler posts (some q)).1 = [] ∧
    listHandler posts none = listHandler posts (some "1") := by
  constructor
  · have hj : jsOrStr (some q) "1" = q := by simp [jsOrStr, hne]
    simp [listHandler, hj, hq, jsSlice, toIntegerOrInfinity, sliceIndex]
  · rfl

/-- Concrete instance of `listHandler_nonNumeric` at `page=abc` on the
sample artifact. -/
theorem listHandler_nonNumeric_witness :
    (listHandler (SAMPLE_BLOG_DATA 0).posts (some "abc")).1 = [] ∧
    listHandler (SAMPLE_BLOG_DATA 0).posts none =
      listHandler (SAMPLE_BLOG_DATA 0).posts (some "1") :=
  listHandler_nonNumeric _ "abc" (by decide) (by decide)

/-- Claim C10: requesting the listing with `page=0` returns the empty post
sequence for every post collection: the bounds are `start = -10` and
`end = 0`, and slicing any list over those bounds is empty. -/
theorem listHandler_page_zero (posts : List Post) :
    (listHandler posts (some "0")).1 = [] ∧
    slicePage posts 0 = jsSlice posts (some (-10)) (some 0) ∧
    slicePage posts 0 = [] := by
  have hparse : parseIntJS (jsOrStr (some "0") "1") = some 0 := by decide
  refine ⟨?_, ?_, ?_⟩
  · simp only [listHandler, hparse, Option.map_some]
    norm_num [jsSlice, toIntegerOrInfinity, sliceIndex]
  · norm_num [slicePage]
  · norm_num [slicePage, jsSlice, toIntegerOrInfinity, sliceIndex]

/-- The slug lookup of the post-detail route of src/index.ts:
`blogData.posts.find(p => p.slug === slug)`. -/
def getBySlug (d : BlogData) (slug : String) : Option Post :=
  d.posts.find? (fun p => p.slug == slug)

/-- The observable outcome of the post-detail route: either the post page
for a found post, or the 404 not-found page. -/
inductive SlugResponse where
  | found : Post → SlugResponse
  | notFound : SlugResponse
deriving DecidableEq

/-- The post-detail route of src/index.ts: render the post when the slug
lookup succeeds, else the 404-equivalent not-found page. -/
def slugRoute (d : BlogData) (slug : String) : SlugResponse :=
  match getBySlug d slug with
  | some p => SlugResponse.found p
  | none => SlugResponse.notFound

/-- In a list whose mapped slugs are pairwise distinct, two members with
the same slug are the same post. -/
theorem eq_of_slug_eq_of_nodup {l : List Post} (hnd : (l.map Post.slug).Nodup)
    {p q : Post} (hp : p ∈ l) (hq : q ∈ l) (h : p.slug = q.slug) : p = q := by
  induction l with
  | nil => cases hp
  | cons a t ih =>
    rw [List.map_cons, List.nodup_cons] at hnd
    rcases List.mem_cons.mp hp with rfl | hp2 <;> rcases List.mem_cons.mp hq with rfl | hq2
    · rfl
    · exact absurd (h ▸ List.mem_map_of_mem Post.slug hq2) hnd.1
    · exact absurd (h ▸ List.mem_map_of_mem Post.slug hp2) hnd.1
    · exact ih hnd.2 hp2 hq2

/-- `find?` succeeds whenever some member satisfies the predicate. -/
theorem find?_isSome_of_mem {α : Type} (p : α → Bool) {l : List α} {a : α}
    (ha : a ∈ l) (hpa : p a = true) : ∃ b, l.find? p = some b := by
  cases hfb : l.find? p with
  | some b => exact ⟨b, rfl⟩
  | none => exact absurd hpa (by simpa using List.find?_eq_none.mp hfb a ha)

/-- Claim C4: for every artifact whose slugs are unique and every slug
string, the detail route returns the post whose slug matches exactly when
one is present, and the 404-equivalent not-found response when none does
(the lookup is total, so it never throws). -/
theorem getBySlug_spec (d : BlogData) (s : String)
    (hnd : (d.posts.map Post.slug).Nodup) :
    (∀ p, p ∈ d.posts → p.slug = s → slugRoute d s = SlugResponse.found p) ∧
    ((∀ p ∈ d.posts, p.slug ≠ s) → slugRoute d s = SlugResponse.notFound) := by
  constructor
  · intro p hp hps
    obtain ⟨q, hq⟩ := find?_isSome_of_mem (fun r => r.slug == s) hp (by simpa using hps)
    have hqmem : q ∈ d.posts := List.mem_of_find?_eq_some hq
    have hqs : q.slug = s := by simpa using List.find?_some hq
    have hqp : q = p := eq_of_slug_eq_of_nodup hnd hqmem hp (by rw [hqs, hps])
    simp [slugRoute, getBySlug, hq, hqp]
  · intro hall
    have hnone : d.posts.find? (fun r => r.slug == s) = none :=
      List.find?_eq_none.mpr (fun x hx => by simpa using hall x hx)
    simp [slugRoute, getBySlug, hnone]

/-- Concrete instances of `getBySlug_spec` on the sample artifact: the
sample slug is found, an unknown slug yields the not-found response. -/
theorem getBySlug_spec_witness :
    slugRoute (SAMPLE_BLOG_DATA 0) "no-such-post" = SlugResponse.notFound :=
  (getBySlug_spec (SAMPLE_BLOG_DATA 0) "no-such-post" (by decide)).2 (by decide)

/-- The tag route of src/index.ts: `taggedSlugs = blogData.tags[tag] || []`,
then `taggedSlugs.map(slug => posts.find(p => p.slug === slug))` filtered by
truthiness (dropping the `undefined` results of failed finds). -/
def getByTag (d : BlogData) (tag : String) : List Post :=
  let taggedSlugs := (d.tags.lookup tag).getD []
  (taggedSlugs.map (fun slug => d.posts.find? (fun p => p.slug == slug))).filterMap id

/-- Length of mapping into an option and keeping the hits: the count of
arguments whose image is `some`. -/
theorem length_filterMap_count {α β : Type} (f : α → Option β) (l : List α) :
    (l.filterMap f).length = l.countP (fun a => (f a).isSome) := by
  induction l with
  | nil => rfl
  | cons a t ih =>
    cases hfa : f a <;> simp [List.filterMap_cons, List.countP_cons, hfa, ih]

/-- Claim C5: for every artifact and tag string, a tag absent from the tag
index yields the empty sequence (not an error); every returned post is a
post of the artifact whose slug is listed under the tag; the number of
returned posts is exactly the number of listed slugs that resolve to a
post (unresolvable slugs are silently dropped); and a listed slug resolves
precisely when some post of the artifact carries it. -/
theorem getByTag_spec (d : BlogData) (t : String) :
    (d.tags.lookup t = none → getByTag d t = []) ∧
    (∀ p ∈ getByTag d t, p ∈ d.posts ∧ p.slug ∈ (d.tags.lookup t).getD []) ∧
    ((getByTag d t).length =
      ((d.tags.lookup t).getD []).countP
        (fun s => (d.posts.find? (fun p => p.slug == s)).isSome)) ∧
    (∀ s ∈ (d.tags.lookup t).getD [],
      ((d.posts.find? (fun p => p.slug == s)).isSome = true ↔
        ∃ p ∈ d.posts, p.slug = s)) := by
  refine ⟨?_, ?_, ?_, ?_⟩
  · intro h
    simp [getByTag, h]
  · intro p hp
    simp only [getByTag, List.mem_filterMap, List.mem_map, id] at hp
    obtain ⟨o, ⟨sl, hsl, rfl⟩, ho⟩ := hp
    have hfind : d.posts.find? (fun q => q.slug == sl) = some p := ho
    refine ⟨List.mem_of_find?_eq_some hfind, ?_⟩
    have hps : p.slug = sl := by simpa using List.find?_some hfind
    rw [hps]
    exact hsl
  · simp only [getByTag, List.filterMap_map]
    simpa using length_filterMap_count (fun sl => d.posts.find? (fun p => p.slug == sl)) _
  · intro s _
    constructor
    · intro hsome
      obtain ⟨p, hp⟩ := Option.isSome_iff_exists.mp hsome
      exact ⟨p, List.mem_of_find?_eq_some hp, by simpa using List.find?_some hp⟩
    · rintro ⟨p, hpmem, hps⟩
      obtain ⟨q, hq⟩ := find?_isSome_of_mem (fun r => r.slug == s) hpmem (by simpa using hps)
      simp [hq]

/-- Concrete instance of `getByTag_spec`: a tag absent from the sample
artifact's index yields the empty sequence. -/
theorem getByTag_spec_witness :
    getByTag (SAMPLE_BLOG_DATA 0) "missing-tag" = [] :=
  (getByTag_spec (SAMPLE_BLOG_DATA 0) "missing-tag").1 (by decide)

/-- The front-matter mapping returned by the gray-matter collaborator for
one document in scripts/build.js: each field either present or absent.
Dates are modelled already parsed (`new Date(...)` timestamps), and `tags`
is `some` exactly when `Array.isArray(data.tags)` holds. -/
structure FrontMatter where
  slug : Option String
  title : Option String
  date : Option Int
  updated : Option Int
  tags : Option (List String)
  excerpt : Option String
deriving DecidableEq, Repr

/-- One source document of scripts/build.js: its base file name (without
the .md suffix), its parsed front-matter, and its body text. -/
structure Document where
  fileName : String
  data : FrontMatter
  content : String
deriving DecidableEq, Repr

/-- JavaScript `String.prototype.trim` on a character list: drop whitespace
from both ends. -/
def trimChars (l : List Char) : List Char :=
  ((l.dropWhile Char.isWhitespace).reverse.dropWhile Char.isWhitespace).reverse

/-- The derived excerpt of scripts/build.js:
`content.slice(0, 150).replace(markupChars, "").trim() + "..."` where the
replaced characters are the hash mark, the asterisk, and the backtick
(code 96). -/
def autoExcerpt (content : String) : String :=
  String.mk (trimChars ((content.toList.take 150).filter
    (fun c => !(c == '#' || c == '*' || c == Char.ofNat 96)))) ++ "..."

/-- The `postData` object literal of scripts/build.js: slug from metadata
or file name, title defaulting to "Untitled", date defaulting to build
time, tags defaulting to the empty list, excerpt from metadata or derived
from the body, content rendered by the markup collaborator. -/
def mkPost (now : Int) (render : String → String) (doc : Document) : Post :=
  { slug := jsOrStr doc.data.slug doc.fileName
    title := jsOrStr doc.data.title "Untitled"
    date := doc.data.date.getD now
    updated := doc.data.updated
    tags := doc.data.tags.getD []
    excerpt := jsOrStr doc.data.excerpt (autoExcerpt doc.content)
    content := render doc.content }

/-- `tagMap[tag].push(slug)` of scripts/build.js, creating the entry when
absent: append the slug to the existing entry for the tag, or add a new
entry at the end (JS object insertion order). -/
def tagMapPush (t s : String) : List (String × List String) → List (String × List String)
  | [] => [(t, [s])]
  | (k, v) :: rest =>
    if k = t then (k, v ++ [s]) :: rest else (k, v) :: tagMapPush t s rest

/-- The `postData.tags.forEach` loop of scripts/build.js for one post's
slug over its tag list. -/
def tagFold (s : String) (ts : List String) (m : List (String × List String)) :
    List (String × List String) :=
  ts.foldl (fun m2 t => tagMapPush t s m2) m

/-- The sort order of `postsData.sort((a, b) => new Date(b.date) - new
Date(a.date))`: descending by date. -/
def byDateDesc (a b : Post) : Prop := b.date ≤ a.date

instance : DecidableRel byDateDesc :=
  fun a b => inferInstanceAs (Decidable (b.date ≤ a.date))

instance : IsTotal Post byDateDesc := ⟨fun a b => le_total b.date a.date⟩

instance : IsTrans Post byDateDesc := ⟨fun _ _ _ h1 h2 => le_trans h2 h1⟩

/-- The build pipeline of scripts/build.js: map every document to its post
record, accumulate the tag index in document-processing order, sort the
posts by date descending, and assemble the output artifact. -/
def build (now : Int) (render : String → String) (docs : List Document) : BlogData :=
  let postsData := docs.map (mkPost now render)
  let tagMap := postsData.foldl (fun m p => tagFold p.slug p.tags m) []
  { posts := List.insertionSort byDateDesc postsData
    tags := tagMap
    generatedAt := now }

/-- Claim C6: the build produces exactly one post record per source
document, so the artifact's post count equals the document count. -/
theorem build_posts_length (now : Int) (render : String → String)
    (docs : List Document) :
    (build now render docs).posts.length = docs.length := by
  simp only [build]
  rw [(List.perm_insertionSort byDateDesc _).length_eq, List.length_map]

/-- Claim C7: in every built artifact the post sequence is pairwise
non-increasing by date (descending order; ties in unspecified order). -/
theorem build_posts_sorted (now : Int) (render : String → String)
    (docs : List Document) :
    List.Pairwise (fun a b : Post => b.date ≤ a.date)
      (build now render docs).posts := by
  have h := List.sorted_insertionSort byDateDesc (docs.map (mkPost now render))
  exact h

/-- Effect of one `tagMap[t].push(s)` on every lookup: the entry for `t`
gains `s` at the end (starting from the empty list when absent), every
other entry is unchanged. -/
theorem lookup_tagMapPush (t s x : String) (m : List (String × List String)) :
    (tagMapPush t s m).lookup x =
      if x = t then some (((m.lookup t).getD []) ++ [s]) else m.lookup x := by
  induction m with
  | nil =>
    by_cases hx : x = t
    · simp [tagMapPush, List.lookup, hx]
    · have hbe : (x == t) = false := beq_eq_false_iff_ne.mpr hx
      simp [tagMapPush, List.lookup, hx, hbe]
  | cons kv rest ih =>
    obtain ⟨k, v⟩ := kv
    by_cases hk : k = t
    · subst hk
      by_cases hx : x = k
      · simp [tagMapPush, List.lookup, hx]
      · have hbe : (x == k) = false := beq_eq_false_iff_ne.mpr hx
        simp [tagMapPush, List.lookup, hx, hbe]
    · by_cases hx : x = k
      · subst hx
        have hbe : (x == t) = false := beq_eq_false_iff_ne.mpr hk
        simp [tagMapPush, hk, List.lookup, hbe]
      · have hbe : (x == k) = false := beq_eq_false_iff_ne.mpr hx
        have hbe2 : (t == k) = false := beq_eq_false_iff_ne.mpr (fun h => hk h.symm)
        simp [tagMapPush, hk, List.lookup, hbe, hbe2, ih]

/-- A slug already recorded under a tag survives any later push. -/
theorem mem_lookup_tagMapPush_mono {m : List (String × List String)}
    {x y : String} (t s : String) {l : List String}
    (hl : m.lookup x = some l) (hy : y ∈ l) :
    ∃ l2, (tagMapPush t s m).lookup x = some l2 ∧ y ∈ l2 := by
  rw [lookup_tagMapPush]
  by_cases hx : x = t
  · subst hx
    exact ⟨l ++ [s], by rw [if_pos rfl, hl]; simp, List.mem_append_left _ hy⟩
  · exact ⟨l, by rw [if_neg hx, hl], hy⟩

/-- A push records its own slug under its own tag. -/
theorem mem_lookup_tagMapPush_self (t s : String) (m : List (String × List String)) :
    ∃ l, (tagMapPush t s m).lookup t = some l ∧ s ∈ l := by
  rw [lookup_tagMapPush]
  exact ⟨((m.lookup t).getD []) ++ [s], if_pos rfl, List.mem_append_right _ (by simp)⟩

/-- A recorded slug survives the whole tag loop of one post. -/
theorem mem_lookup_tagFold_mono (s : String) (ts : List String)
    {m : List (String × List String)} {x y : String} {l : List String}
    (hl : m.lookup x = some l) (hy : y ∈ l) :
    ∃ l2, (tagFold s ts m).lookup x = some l2 ∧ y ∈ l2 := by
  induction ts generalizing m l with
  | nil => exact ⟨l, hl, hy⟩
  | cons a rest ih =>
    obtain ⟨l2, hl2, hy2⟩ := mem_lookup_tagMapPush_mono a s hl hy
    exact ih hl2 hy2

/-- The tag loop of one post records its slug under each of its tags. -/
theorem mem_lookup_tagFold_self (s : String) {ts : List String}
    (m : List (String × List String)) {t : String} (ht : t ∈ ts) :
    ∃ l, (tagFold s ts m).lookup t = some l ∧ s ∈ l := by
  induction ts generalizing m with
  | nil => cases ht
  | cons a rest ih =>
    rcases List.mem_cons.mp ht with rfl | h2
    · obtain ⟨l, hl, hs⟩ := mem_lookup_tagMapPush_self t s m
      exact mem_lookup_tagFold_mono s rest hl hs
    · exact ih _ h2

/-- A recorded slug survives the whole build fold over posts. -/
theorem mem_lookup_postsFold_mono (ps : List Post)
    {m : List (String × List String)} {x y : String} {l : List String}
    (hl : m.lookup x = some l) (hy : y ∈ l) :
    ∃ l2, (ps.foldl (fun m2 p => tagFold p.slug p.tags m2) m).lookup x = some l2 ∧
      y ∈ l2 := by
  induction ps generalizing m l with
  | nil => exact ⟨l, hl, hy⟩
  | cons p rest ih =>
    obtain ⟨l2, hl2, hy2⟩ := mem_lookup_tagFold_mono p.slug p.tags hl hy
    exact ih hl2 hy2

/-- The build fold over posts records every post's slug under each of its
tags. -/
theorem mem_lookup_postsFold_self {ps : List Post}
    (m : List (String × List String)) {p : Post} (hp : p ∈ ps) {t : String}
    (ht : t ∈ p.tags) :
    ∃ l, (ps.foldl (fun m2 q => tagFold q.slug q.tags m2) m).lookup t = some l ∧
      p.slug ∈ l := by
  induction ps generalizing m with
  | nil => cases hp
  | cons q rest ih =>
    rcases List.mem_cons.mp hp with rfl | h2
    · obtain ⟨l, hl, hs⟩ := mem_lookup_tagFold_self p.slug m ht
      exact mem_lookup_postsFold_mono rest hl hs
    · exact ih _ h2

/-- Claim C8: in every built artifact, for every post and every tag in its
tag list, the tag index has an entry for that tag containing the post's
slug. -/
theorem build_tag_index_complete (now : Int) (render : String → String)
    (docs : List Document) :
    ∀ p ∈ (build now render docs).posts, ∀ t ∈ p.tags,
      ∃ l, (build now render docs).tags.lookup t = some l ∧ p.slug ∈ l := by
  intro p hp t ht
  have hp2 : p ∈ docs.map (mkPost now render) := by
    simp only [build] at hp
    exact ((List.perm_insertionSort byDateDesc _).mem_iff).mp hp
  simp only [build]
  exact mem_lookup_postsFold_self [] hp2 ht

/-- Concrete instance of `build_tag_index_complete`: a one-document build
with tag "Go" indexes the post's slug under "Go". -/
theorem build_tag_index_complete_witness :
    ∃ l, (build 0 (fun s => s)
      [{ fileName := "post-1",
         data := { slug := none, title := some "T", date := some 5,
                   updated := none, tags := some ["Go"], excerpt := some "E" },
         content := "body" }]).tags.lookup "Go" = some l ∧
      (mkPost 0 (fun s => s)
        { fileName := "post-1",
          data := { slug := none, title := some "T", date := some 5,
                    updated := none, tags := some ["Go"], excerpt := some "E" },
          content := "body" }).slug ∈ l :=
  build_tag_index_complete 0 (fun s => s) _ _ (by decide) "Go" (by decide)

/-- Counterexample to claim C9: a document whose front-matter carries an
explicit but empty excerpt override. The override is present, yet the
built excerpt is the auto-derived one (JavaScript `||` treats the empty
string as falsy), so the built excerpt does not equal the override. -/
theorem mkPost_excerpt_cex :
    ({ fileName := "a",
       data := { slug := none, title := none, date := none, updated := none,
                 tags := none, excerpt := some "" },
       content := "Hi" } : Document).data.excerpt = some "" ∧
    (mkPost 0 (fun s => s)
      { fileName := "a",
        data := { slug := none, title := none, date := none, updated := none,
                  tags := none, excerpt := some "" },
        content := "Hi" }).excerpt ≠ "" := by
  exact ⟨rfl, by decide⟩

/-- Claim C9 (amended): the built excerpt equals the explicit front-matter
override whenever a non-empty override is present; when the override is
absent — or present but empty, the empty string being falsy under the
source's `||` — the excerpt is the auto-derived one: the 150-character
body prefix, markup-stripped, trimmed, with an ellipsis appended. -/
theorem mkPost_excerpt_spec (now : Int) (render : String → String)
    (doc : Document) :
    (∀ s, doc.data.excerpt = some s → s ≠ "" → (mkPost now render doc).excerpt = s) ∧
    (doc.data.excerpt = none →
      (mkPost now render doc).excerpt = autoExcerpt doc.content) ∧
    (doc.data.excerpt = some "" →
      (mkPost now render doc).excerpt = autoExcerpt doc.content) := by
  refine ⟨?_, ?_, ?_⟩
  · intro s hs hne
    simp [mkPost, jsOrStr, hs, hne]
  · intro hs
    simp [mkPost, jsOrStr, hs]
  · intro hs
    simp [mkPost, jsOrStr, hs]

/-- Concrete instance of `mkPost_excerpt_spec`: a non-empty override is
taken verbatim. -/
theorem mkPost_excerpt_spec_witness :
    (mkPost 0 (fun s => s)
      { fileName := "a",
        data := { slug := none, title := none, date := none, updated := none,
                  tags := none, excerpt := some "Short" },
        content := "Hi" }).excerpt = "Short" :=
  (mkPost_excerpt_spec 0 (fun s => s) _).1 "Short" rfl (by decide)
